import Mathlib

/-!
# Verification of the AI email assistant core

A shallow embedding of the processing core of the repository
(`base_email_assistant.py` together with the backend variants
`email_assistant_anthropic.py` / `email_assistant_openai.py`), and proofs of
the claims of the specification about it.

External boundaries (the IMAP connection, the generation backend, the JSON
files on disk) are modelled as explicit oracles and state:

* an `ImapModel` says which IMAP calls succeed (a `false` entry models the
  call raising an exception, which is what the Python `try/except` blocks
  catch); an `ImapState` records the observable effects (selected folder,
  appended messages, flagged uids);
* the generation backend is an `Except`-valued oracle, and
  `generate_response` embeds the backend wrapper that catches every
  exception and returns an in-band error string;
* the two JSON documents are `Option`-valued stored snapshots (`none`
  models `FileNotFoundError`); `json.dump`/`json.load` round-trips are
  modelled as the identity on the stored structure;
* decoded message bodies are carried as strings (the `.decode()` boundary).
-/

namespace EmailAssistant

/-! ## Data model (§3 of the spec, `base_email_assistant.py`) -/

/-- One entry of `additional_instructions` in `training_context.json`. -/
structure Instruction where
  timestamp : String
  instruction : String
deriving DecidableEq

/-- One entry of `example_responses` in `training_context.json`. -/
structure ExampleResponse where
  timestamp : String
  sender : String
  subject : String
  original_content : String
  response : String
deriving DecidableEq

/-- The `training_context.json` document. -/
structure TrainingContext where
  system_prompt : String
  additional_instructions : List Instruction
  example_responses : List ExampleResponse
deriving DecidableEq

/-- One entry of the per-sender list in `conversation_history.json`. -/
structure HistoryEntry where
  timestamp : String
  subject : String
  content : String
  response : String
deriving DecidableEq

/-- The candidate work item built by `get_new_emails`
(the dict `{uid, sender, subject, content}`). -/
structure EmailData where
  uid : String
  sender : String
  subject : String
  content : String
deriving DecidableEq

/-- The `conversation_history.json` document: a Python dict from sender address to a list
of entries, modelled as an insertion-ordered association list (Python dicts
are insertion-ordered and have unique keys). -/
def Hist : Type := List (String × List HistoryEntry)

/-- Python `h[sender]` / `sender in h` lookup on the association list:
the first pair whose key equals the sender. -/
def hlookup (sender : String) : List (String × List HistoryEntry) → Option (List HistoryEntry)
  | [] => none
  | p :: t => if p.1 = sender then some p.2 else hlookup sender t

/-! ## ContextStore operations (`base_email_assistant.py` lines 31-68, 154-196) -/

/-- Embedding of `load_training_context` (lines 31-42): read `training_context.json`;
on `FileNotFoundError` initialize from the configured system prompt and
immediately persist.  Returns the in-memory context and the stored document
after the call. -/
def load_training_context (cfgSystemPrompt : String) (stored : Option TrainingContext) :
    TrainingContext × Option TrainingContext :=
  match stored with
  | some tc => (tc, some tc)
  | none =>
    let tc : TrainingContext :=
      { system_prompt := cfgSystemPrompt
        additional_instructions := []
        example_responses := [] }
    (tc, some tc)

/-- Embedding of `save_training_context` (lines 44-47): serialize the whole in-memory
context back to `training_context.json`. -/
def save_training_context (tc : TrainingContext) : Option TrainingContext :=
  some tc

/-- Embedding of `add_instruction` (lines 49-56): append a timestamped instruction to
`additional_instructions`, then persist synchronously.  Returns the new
in-memory context and the new stored document. -/
def add_instruction (now text : String) (tc : TrainingContext) :
    TrainingContext × Option TrainingContext :=
  let tc2 : TrainingContext :=
    { tc with additional_instructions :=
        tc.additional_instructions ++ [{ timestamp := now, instruction := text }] }
  (tc2, save_training_context tc2)

/-- The entry appended by `update_history` (lines 174-179). -/
def mkHistEntry (now : String) (ed : EmailData) (resp : String) : HistoryEntry :=
  { timestamp := now, subject := ed.subject, content := ed.content, response := resp }

/-- The in-memory mutation of `update_history` (lines 170-179): create the
per-sender list if absent (`self.history[sender] = []`), then append the new
entry to it.  Every other key is left alone. -/
def histAppend (h : List (String × List HistoryEntry)) (sender : String) (e : HistoryEntry) :
    List (String × List HistoryEntry) :=
  if (hlookup sender h).isSome then
    h.map (fun p => if p.1 = sender then (p.1, p.2 ++ [e]) else p)
  else
    h ++ [(sender, [e])]

/-- The no-history sentinel returned by `_get_relevant_history` (line 185). -/
def noHistoryMsg : String := "No previous conversations found."

/-- Rendering of one history entry inside `_get_relevant_history`
(lines 192-194). -/
def renderConv (c : HistoryEntry) : String :=
  "Subject: " ++ c.subject ++ "\n" ++ "Original: " ++ c.content ++ "\n" ++
    "Response: " ++ c.response ++ "\n\n"

/-- Embedding of `_get_relevant_history` (lines 182-196): the sentinel when the sender is
not a key of the history dict; otherwise the rendering of the Python slice
`self.history[sender][-5:]` (`l.drop (l.length - 5)` is exactly `l[-5:]`). -/
def _get_relevant_history (h : List (String × List HistoryEntry)) (sender : String) : String :=
  match hlookup sender h with
  | none => noHistoryMsg
  | some convs => String.join ((convs.drop (convs.length - 5)).map renderConv)

end EmailAssistant

namespace EmailAssistant

/-! ## Helper lemmas about `hlookup` and `histAppend` -/

lemma hlookup_append_of_none {h : List (String × List HistoryEntry)} {s : String}
    (hn : hlookup s h = none) (q : String × List HistoryEntry) :
    hlookup s (h ++ [q]) = if q.1 = s then some q.2 else none := by
  induction h with
  | nil => simp [hlookup]
  | cons p t ih =>
    by_cases hp : p.1 = s
    · simp [hlookup, hp] at hn
    · simp only [hlookup, hp, if_false, List.cons_append] at hn ⊢
      exact ih hn

lemma hlookup_map_update_self {h : List (String × List HistoryEntry)} {s : String}
    {l : List HistoryEntry} (hf : hlookup s h = some l) (e : HistoryEntry) :
    hlookup s (h.map (fun p => if p.1 = s then (p.1, p.2 ++ [e]) else p)) = some (l ++ [e]) := by
  induction h with
  | nil => simp [hlookup] at hf
  | cons p t ih =>
    by_cases hp : p.1 = s
    · simp only [hlookup, hp, if_true, Option.some.injEq] at hf
      simp [hlookup, hp, hf]
    · simp only [hlookup, hp, if_false] at hf
      simp only [List.map_cons, hlookup, hp, if_false]
      exact ih hf

lemma hlookup_map_update_other {h : List (String × List HistoryEntry)} {s sender : String}
    (hne : s ≠ sender) (e : HistoryEntry) :
    hlookup s (h.map (fun p => if p.1 = sender then (p.1, p.2 ++ [e]) else p)) = hlookup s h := by
  induction h with
  | nil => simp [hlookup]
  | cons p t ih =>
    by_cases hp : p.1 = sender
    · have hps : ¬ p.1 = s := by rw [hp]; exact fun hc => hne hc.symm
      simp [hlookup, hp, hps, ih, Ne.symm hne]
    · by_cases hps : p.1 = s
      · simp [hlookup, hp, hps, hne]
      · simp [hlookup, hp, hps, ih]

/-- After `histAppend`, the list of the sender is its old value (empty if the
sender was unknown) with exactly the new entry appended. -/
lemma hlookup_histAppend_self (h : List (String × List HistoryEntry)) (sender : String)
    (e : HistoryEntry) :
    hlookup sender (histAppend h sender e) = some ((hlookup sender h).getD [] ++ [e]) := by
  unfold histAppend
  cases hf : hlookup sender h with
  | none =>
    simp only [hf, Option.isSome_none, Bool.false_eq_true, if_false]
    rw [hlookup_append_of_none hf]
    simp
  | some l =>
    simp only [hf, Option.isSome_some, if_true]
    rw [hlookup_map_update_self hf]
    simp

/-- The update `histAppend` leaves the list of every other sender unchanged. -/
lemma hlookup_histAppend_other (h : List (String × List HistoryEntry)) {s sender : String}
    (hne : s ≠ sender) (e : HistoryEntry) :
    hlookup s (histAppend h sender e) = hlookup s h := by
  unfold histAppend
  cases hf : hlookup sender h with
  | none =>
    simp only [hf, Option.isSome_none, Bool.false_eq_true, if_false]
    induction h with
    | nil => simp [hlookup, Ne.symm hne]
    | cons p t ih =>
      by_cases hp : p.1 = s
      · simp [hlookup, hp]
      · simp only [List.cons_append, hlookup, hp, if_false]
        by_cases hps : p.1 = sender
        · simp [hlookup, hps] at hf
        · simp only [hlookup, hps, if_false] at hf
          exact ih hf
  | some l =>
    simp only [hf, Option.isSome_some, if_true]
    exact hlookup_map_update_other hne e

/-- The update `histAppend` preserves the invariant that every present sender has a
non-empty list. -/
lemma histAppend_nonempty (h : List (String × List HistoryEntry)) (sender : String)
    (e : HistoryEntry) (hinv : ∀ p ∈ h, p.2 ≠ ([] : List HistoryEntry)) :
    ∀ p ∈ histAppend h sender e, p.2 ≠ ([] : List HistoryEntry) := by
  intro p hp
  by_cases hf : (hlookup sender h).isSome
  · rw [histAppend, if_pos hf, List.mem_map] at hp
    obtain ⟨q, hq, hpq⟩ := hp
    by_cases hqs : q.1 = sender
    · rw [← hpq, if_pos hqs]
      simp
    · rw [← hpq, if_neg hqs]
      exact hinv q hq
  · rw [histAppend, if_neg hf, List.mem_append, List.mem_singleton] at hp
    rcases hp with hp | hp
    · exact hinv p hp
    · rw [hp]
      simp

end EmailAssistant

namespace EmailAssistant

/-! ## MessageFilter & Extractor (`get_new_emails`, `base_email_assistant.py` lines 70-111) -/

/-- The Python substring operator `needle in hay` on strings, over the
character list of the haystack. -/
def containsSub (needle : List Char) : List Char → Bool
  | [] => needle.isEmpty
  | c :: t => needle.isPrefixOf (c :: t) || containsSub needle t

/-- Python `needle in hay` for strings. -/
def pyIn (needle hay : String) : Bool := containsSub needle.toList hay.toList

/-- The `text/plain` content type compared against in `get_new_emails`. -/
def textPlain : String := "text/plain"

/-- One part yielded by `email_message.walk()`; `payload` is the decoded
text of `part.get_payload(decode=True).decode()` (the decode boundary is
modelled as already performed). -/
structure MsgPart where
  contentType : String
  payload : String
deriving DecidableEq

/-- A fetched raw message, as far as `get_new_emails` inspects it. -/
structure RawMessage where
  uid : String
  sender : String
  replyTo : Option String
  subject : String
  multipart : Bool
  parts : List MsgPart
  payload : String
deriving DecidableEq

/-- Body extraction of `get_new_emails` (lines 91-99): for a multipart
message, the decoded payload of the first part whose content type is
`text/plain` (the `for`/`break` loop), empty if none; otherwise the decoded
single payload. -/
def extract_content (r : RawMessage) : String :=
  if r.multipart then
    match r.parts.find? (fun p => p.contentType == textPlain) with
    | some p => p.payload
    | none => ""
  else r.payload

/-- Python `addr.lower()` as a character list (per-character lowercasing). -/
def lowerChars (s : String) : List Char := s.toList.map Char.toLower

/-- The blacklist test of lines 83 and 88 (and `is_blacklisted` in
`email-assistant.py` line 45):
`any(blacklisted in addr.lower() for blacklisted in blacklist)`.
Note that only the address is lowercased, not the blacklist entry. -/
def sender_blacklisted (blacklist : List String) (addr : String) : Bool :=
  blacklist.any (fun b => containsSub b.toList (lowerChars addr))

/-- The guard of line 88: `reply_to and any(blacklisted in reply_to.lower() ...)`
(an absent reply-to header is falsy, so no check happens). -/
def replyToBlacklisted (blacklist : List String) : Option String → Bool
  | some rt => sender_blacklisted blacklist rt
  | none => false

/-- Per-message body of the fetch loop (lines 76-109): skip the message
when the sender matches the blacklist, skip when a present reply-to
matches, otherwise produce the candidate dict.  A per-message decode error
also skips (modelled at the decode boundary, see `MsgPart`). -/
def processRaw (blacklist : List String) (r : RawMessage) : Option EmailData :=
  if sender_blacklisted blacklist r.sender then none
  else if replyToBlacklisted blacklist r.replyTo then none
  else some { uid := r.uid, sender := r.sender, subject := r.subject,
              content := extract_content r }

/-- Embedding of `get_new_emails` (lines 70-111): the candidate sequence produced from
one batch of fetched raw messages. -/
def get_new_emails (blacklist : List String) (raws : List RawMessage) : List EmailData :=
  raws.filterMap (processRaw blacklist)

/-- Case-insensitive substring containment, the relation the specification
claims the blacklist is matched by. -/
def ciContains (needle hay : String) : Bool :=
  containsSub (lowerChars needle) (lowerChars hay)

/-- Concrete data refuting claim C2 as stated. -/
def spamEntry : String := "SPAM"

/-- Sender matching `spamEntry` case-insensitively but not literally. -/
def spamSender : String := "spam@blocked.com"

/-- A raw message from `spamSender`. -/
def cexRaw : RawMessage :=
  { uid := "1", sender := spamSender, replyTo := none, subject := "hi",
    multipart := false, parts := [], payload := "body" }

/-- C2, counterexample: with the single blacklist entry `"SPAM"`, the
sender `"spam@blocked.com"` contains the entry as a case-insensitive
substring, yet `get_new_emails` does NOT exclude the message: the code
lowercases only the sender (`blacklisted in sender.lower()`), so an entry
containing an uppercase letter can never match.  The clause of the claim demanding exclusion for every casing of the blacklist entry is false. -/
theorem uppercase_blacklist_entry_not_excluded :
    ciContains spamEntry spamSender = true ∧
    get_new_emails [spamEntry] [cexRaw] =
      [{ uid := "1", sender := spamSender, subject := "hi", content := "body" }] := by
  decide

/-- C2 (amended): a fetched message is excluded from the candidate
sequence (in every batch) whenever its sender, or its reply-to when
present, contains a blacklist entry verbatim after lowercasing the
address only; consequently the matching is case-insensitive in the
casing of the message but case-sensitive in the casing of the entry, and the
claimed fully case-insensitive exclusion holds exactly for blacklist
entries that are already lowercase. -/
theorem blacklist_lowercase_containment :
    ∀ (bl : List String) (raws : List RawMessage),
      get_new_emails bl raws = raws.filterMap (processRaw bl) ∧
      (∀ r : RawMessage,
        (sender_blacklisted bl r.sender = true ∨
          (∃ rt, r.replyTo = some rt ∧ sender_blacklisted bl rt = true)) →
        processRaw bl r = none) ∧
      (∀ (r : RawMessage) (b : String), b ∈ bl → lowerChars b = b.toList →
        (ciContains b r.sender = true ∨
          (∃ rt, r.replyTo = some rt ∧ ciContains b rt = true)) →
        processRaw bl r = none) := by
  intro bl raws
  have hexcl : ∀ r : RawMessage,
      (sender_blacklisted bl r.sender = true ∨
        (∃ rt, r.replyTo = some rt ∧ sender_blacklisted bl rt = true)) →
      processRaw bl r = none := by
    intro r hr
    unfold processRaw
    rcases hr with hs | ⟨rt, hrt, hb⟩
    · rw [if_pos hs]
    · by_cases hs : sender_blacklisted bl r.sender = true
      · rw [if_pos hs]
      · have hrb : replyToBlacklisted bl r.replyTo = true := by rw [hrt]; exact hb
        rw [if_neg hs, if_pos hrb]
  refine ⟨rfl, hexcl, ?_⟩
  intro r b hb hlow hci
  have hone : ∀ addr : String, ciContains b addr = true →
      sender_blacklisted bl addr = true := by
    intro addr hc
    unfold ciContains at hc
    rw [hlow] at hc
    unfold sender_blacklisted
    rw [List.any_eq_true]
    exact ⟨b, hb, hc⟩
  rcases hci with hs | ⟨rt, hrt, hc⟩
  · exact hexcl r (Or.inl (hone r.sender hs))
  · exact hexcl r (Or.inr ⟨rt, hrt, hone rt hc⟩)

/-- Lowercase blacklist entry used by the C2 witness. -/
def spamLower : String := "spam"

/-- Witness raw message: uppercase sender, to be matched case-insensitively
by the lowercase entry. -/
def cexRaw2 : RawMessage :=
  { uid := "2", sender := "SPAM@blocked.com", replyTo := none, subject := "hi",
    multipart := false, parts := [], payload := "body" }

/-- Witness for the amended C2 theorem at a concrete input: a lowercase
entry excludes an uppercase sender. -/
theorem blacklist_lowercase_containment_witness :
    processRaw [spamLower] cexRaw2 = none :=
  (blacklist_lowercase_containment [spamLower] [cexRaw2]).2.2 cexRaw2 spamLower
    (by decide) (by decide) (Or.inl (by decide))

/-- The search `List.find?` returns the element at the first index satisfying the
predicate. -/
lemma find_first_of_take {α : Type} (p : α → Bool) :
    ∀ (l : List α) (i : ℕ) (h : i < l.length),
      (∀ a ∈ l.take i, p a = false) → p (l.get ⟨i, h⟩) = true →
      l.find? p = some (l.get ⟨i, h⟩) := by
  intro l
  induction l with
  | nil => intro i h; exact absurd h (by simp)
  | cons x xs ih =>
    intro i h hpre hpi
    cases i with
    | zero =>
      exact List.find?_cons_of_pos xs hpi
    | succ j =>
      have hx : p x = false := hpre x (by simp [List.take_succ_cons])
      have hstep : (x :: xs).find? p = xs.find? p :=
        List.find?_cons_of_neg xs (by simp [hx])
      rw [hstep]
      exact ih j (Nat.lt_of_succ_lt_succ h)
        (fun a ha => hpre a (by simp [List.take_succ_cons, ha])) hpi

/-- C6: body extraction.  For a multipart message the extracted body is
the decoded payload of the first `text/plain` part in walk order, and is
empty when no such part exists; for a non-multipart message it is the
decoded single payload. -/
theorem extract_content_spec :
    ∀ r : RawMessage,
      (r.multipart = true →
        ((∀ p ∈ r.parts, p.contentType ≠ textPlain) → extract_content r = "") ∧
        (∀ (i : ℕ) (h : i < r.parts.length),
          (∀ p ∈ r.parts.take i, p.contentType ≠ textPlain) →
          (r.parts.get ⟨i, h⟩).contentType = textPlain →
          extract_content r = (r.parts.get ⟨i, h⟩).payload)) ∧
      (r.multipart = false → extract_content r = r.payload) := by
  intro r
  constructor
  · intro hm
    constructor
    · intro hall
      unfold extract_content
      rw [if_pos hm]
      have hnone : r.parts.find? (fun p => p.contentType == textPlain) = none := by
        rw [List.find?_eq_none]
        intro a ha
        simp only [beq_iff_eq]
        exact hall a ha
      rw [hnone]
    · intro i h hpre hp
      unfold extract_content
      rw [if_pos hm]
      have hfind := find_first_of_take (fun p => p.contentType == textPlain) r.parts i h
        (fun a ha => by simp only [beq_eq_false_iff_ne, ne_eq]; exact hpre a ha)
        (by simp only [beq_iff_eq]; exact hp)
      rw [hfind]
  · intro hm
    unfold extract_content
    rw [if_neg (by simp [hm])]

/-- Concrete multipart message for the C6 witness: an HTML part before the
first plain-text part, and a second plain-text part that must be ignored. -/
def w6raw : RawMessage :=
  { uid := "7", sender := "bob@example.com", replyTo := none, subject := "q",
    multipart := true,
    parts := [{ contentType := "text/html", payload := "<p>x</p>" },
              { contentType := "text/plain", payload := "first plain" },
              { contentType := "text/plain", payload := "second plain" }],
    payload := "" }

/-- Concrete non-multipart message for the C6 witness. -/
def w6raw2 : RawMessage :=
  { uid := "8", sender := "bob@example.com", replyTo := none, subject := "q",
    multipart := false, parts := [], payload := "single body" }

/-- Witness for C6 at concrete inputs: the first `text/plain` part wins in
the multipart case, and the single payload is used otherwise. -/
theorem extract_content_spec_witness :
    extract_content w6raw = "first plain" ∧ extract_content w6raw2 = "single body" :=
  ⟨((extract_content_spec w6raw).1 rfl).2 1 (by decide) (by decide) rfl,
   (extract_content_spec w6raw2).2 rfl⟩

end EmailAssistant

namespace EmailAssistant

/-! ## IMAP model and state (the `imaplib` boundary)

`selectOk f` / `appendOk f` say whether `imap.select(f)` / `imap.append(f, ...)`
complete normally; `false` models the call raising, which the Python code
catches.  `ImapState` records the observable effects: the currently selected
folder, the log of successful appends, and the uids flagged `\Seen`. -/

structure ImapModel where
  selectOk : String → Bool
  appendOk : String → Bool
  storeOk : Bool

/-- A composed draft message (the `EmailMessage` built in `save_draft`). -/
structure Draft where
  toAddr : String
  fromAddr : String
  subject : String
  body : String
deriving DecidableEq

/-- Observable IMAP effects. -/
structure ImapState where
  selected : String
  appended : List (String × Draft)
  flagged : List String
deriving DecidableEq

/-- The primary folder name. -/
def inboxName : String := "INBOX"

end EmailAssistant

namespace EmailAssistant

/-! ## DraftPublisher (`save_draft`, `base_email_assistant.py` lines 113-148) -/

/-- The fixed candidate folder list of line 124. -/
def draftFolders : List String := ["Drafts", "Draft", "[Gmail]/Drafts", "INBOX/Drafts"]

/-- The draft composed in lines 117-121. -/
def mkDraft (cfgEmail : String) (ed : EmailData) (resp : String) : Draft :=
  { toAddr := ed.sender, fromAddr := cfgEmail, subject := "Re: " ++ ed.subject, body := resp }

/-- The folder loop of lines 127-135: for each candidate folder, select it
then append the draft; a raised exception from either call (`selectOk` /
`appendOk` false) falls into the bare `except: continue`.  A successful
select followed by a failing append leaves that folder selected.  Returns
the state together with the `saved` flag. -/
def trySaveFolders (m : ImapModel) (d : Draft) : ImapState → List String → ImapState × Bool
  | st, [] => (st, false)
  | st, f :: rest =>
    if m.selectOk f then
      if m.appendOk f then
        ({ selected := f, appended := st.appended ++ [(f, d)], flagged := st.flagged }, true)
      else trySaveFolders m d { st with selected := f } rest
    else trySaveFolders m d st rest

/-- Embedding of `save_draft` (lines 113-148): compose the draft, walk the candidate
folders, fall back to appending into INBOX when none accepted
(lines 137-141), then re-select INBOX (line 144).  The outer
`try/except` (lines 115, 145-148) swallows every exception, so the
function always returns normally, truncating the effects at the point of
a failing fallback call. -/
def save_draft (m : ImapModel) (cfgEmail : String) (ed : EmailData) (resp : String)
    (st : ImapState) : ImapState :=
  let d := mkDraft cfgEmail ed resp
  let res := trySaveFolders m d st draftFolders
  if res.2 then
    if m.selectOk inboxName then { res.1 with selected := inboxName } else res.1
  else
    if m.selectOk inboxName then
      if m.appendOk inboxName then
        let st3 : ImapState :=
          { selected := inboxName, appended := res.1.appended ++ [(inboxName, d)],
            flagged := res.1.flagged }
        if m.selectOk inboxName then { st3 with selected := inboxName } else st3
      else { res.1 with selected := inboxName }
    else res.1

/-- Embedding of `mark_as_read` (lines 150-152): flag the uid `\Seen`. -/
def mark_as_read (uid : String) (st : ImapState) : ImapState :=
  { st with flagged := st.flagged ++ [uid] }

/-- The folder loop never flags anything. -/
lemma trySaveFolders_flagged (m : ImapModel) (d : Draft) :
    ∀ (fs : List String) (st : ImapState), (trySaveFolders m d st fs).1.flagged = st.flagged := by
  intro fs
  induction fs with
  | nil => intro st; rfl
  | cons f rest ih =>
    intro st
    unfold trySaveFolders
    by_cases hs : m.selectOk f = true
    · rw [if_pos hs]
      by_cases ha : m.appendOk f = true
      · rw [if_pos ha]
      · rw [if_neg ha]; exact ih _
    · rw [if_neg hs]; exact ih _

/-- The publisher `save_draft` never flags anything. -/
lemma save_draft_flagged (m : ImapModel) (c : String) (ed : EmailData) (r : String)
    (st : ImapState) : (save_draft m c ed r st).flagged = st.flagged := by
  simp only [save_draft]
  have hres := trySaveFolders_flagged m (mkDraft c ed r) draftFolders st
  by_cases h1 : (trySaveFolders m (mkDraft c ed r) st draftFolders).2 = true
  · rw [if_pos h1]
    by_cases h2 : m.selectOk inboxName = true
    · rw [if_pos h2]; exact hres
    · rw [if_neg h2]; exact hres
  · rw [if_neg h1]
    by_cases h2 : m.selectOk inboxName = true
    · rw [if_pos h2]
      by_cases h3 : m.appendOk inboxName = true
      · rw [if_pos h3, if_pos h2]; exact hres
      · rw [if_neg h3]; exact hres
    · rw [if_neg h2]; exact hres

/-- If every folder in the list rejects (its select or its append raises),
the loop appends nothing, flags nothing, and reports `saved = false`;
only the selected folder may have changed. -/
lemma trySave_all_fail (m : ImapModel) (d : Draft) :
    ∀ (fs : List String),
      (∀ g ∈ fs, ¬(m.selectOk g = true ∧ m.appendOk g = true)) →
      ∀ st : ImapState, ∃ sel,
        trySaveFolders m d st fs
          = ({ selected := sel, appended := st.appended, flagged := st.flagged }, false) := by
  intro fs
  induction fs with
  | nil =>
    intro _ st
    exact ⟨st.selected, rfl⟩
  | cons f rest ih =>
    intro hall st
    have hf := hall f (by simp)
    by_cases hs : m.selectOk f = true
    · have ha : ¬ m.appendOk f = true := fun hc => hf ⟨hs, hc⟩
      have hrest : ∀ g ∈ rest, ¬(m.selectOk g = true ∧ m.appendOk g = true) :=
        fun g hg => hall g (by simp [hg])
      obtain ⟨sel, hsel⟩ := ih hrest { st with selected := f }
      refine ⟨sel, ?_⟩
      unfold trySaveFolders
      rw [if_pos hs, if_neg ha, hsel]
    · have hrest : ∀ g ∈ rest, ¬(m.selectOk g = true ∧ m.appendOk g = true) :=
        fun g hg => hall g (by simp [hg])
      obtain ⟨sel, hsel⟩ := ih hrest st
      refine ⟨sel, ?_⟩
      unfold trySaveFolders
      rw [if_neg hs, hsel]

/-- If every folder before `f` rejects and `f` accepts, the loop stops at
`f` with exactly one append, regardless of the folders after `f`. -/
lemma trySave_first_success (m : ImapModel) (d : Draft) (f : String)
    (hs : m.selectOk f = true) (ha : m.appendOk f = true) :
    ∀ (pre : List String),
      (∀ g ∈ pre, ¬(m.selectOk g = true ∧ m.appendOk g = true)) →
      ∀ (st : ImapState) (post : List String),
        trySaveFolders m d st (pre ++ f :: post)
          = ({ selected := f, appended := st.appended ++ [(f, d)], flagged := st.flagged },
             true) := by
  intro pre
  induction pre with
  | nil =>
    intro _ st post
    unfold trySaveFolders
    rw [List.nil_append]
    simp only []
    rw [if_pos hs, if_pos ha]
  | cons g rest ih =>
    intro hall st post
    have hg := hall g (by simp)
    have hrest : ∀ x ∈ rest, ¬(m.selectOk x = true ∧ m.appendOk x = true) :=
      fun x hx => hall x (by simp [hx])
    rw [List.cons_append]
    unfold trySaveFolders
    by_cases hgs : m.selectOk g = true
    · have hga : ¬ m.appendOk g = true := fun hc => hg ⟨hgs, hc⟩
      rw [if_pos hgs, if_neg hga, ih hrest]
    · rw [if_neg hgs, ih hrest]

/-- C3: draft-folder fallback.  The candidate order is the fixed list
`Drafts, Draft, [Gmail]/Drafts, INBOX/Drafts`; for any split of that list
around a folder `f`, if every earlier folder rejects and `f` accepts its
select-and-append, the outcome of the loop is independent of the later folders
(they are never attempted), the only append performed by `save_draft` is
the draft into `f`, and afterwards the selection is INBOX; if all four
candidates reject and INBOX accepts, the draft is appended to INBOX as a
last resort — `save_draft` returns normally (it has no failure outcome),
so the operation reports success — and the selection is INBOX. -/
theorem save_draft_folder_fallback :
    ∀ (m : ImapModel) (st : ImapState) (c : String) (ed : EmailData) (resp : String),
      draftFolders = ["Drafts", "Draft", "[Gmail]/Drafts", "INBOX/Drafts"] ∧
      (∀ pre f post, draftFolders = pre ++ f :: post →
        (∀ g ∈ pre, ¬(m.selectOk g = true ∧ m.appendOk g = true)) →
        m.selectOk f = true → m.appendOk f = true →
        trySaveFolders m (mkDraft c ed resp) st (pre ++ f :: post)
            = trySaveFolders m (mkDraft c ed resp) st (pre ++ [f]) ∧
        (save_draft m c ed resp st).appended = st.appended ++ [(f, mkDraft c ed resp)] ∧
        (m.selectOk inboxName = true → (save_draft m c ed resp st).selected = inboxName)) ∧
      ((∀ g ∈ draftFolders, ¬(m.selectOk g = true ∧ m.appendOk g = true)) →
        m.selectOk inboxName = true → m.appendOk inboxName = true →
        (save_draft m c ed resp st).appended
            = st.appended ++ [(inboxName, mkDraft c ed resp)] ∧
        (save_draft m c ed resp st).selected = inboxName) := by
  intro m st c ed resp
  refine ⟨rfl, ?_, ?_⟩
  · intro pre f post heq hpre hs ha
    have hfirst := trySave_first_success m (mkDraft c ed resp) f hs ha pre hpre st
    refine ⟨by rw [hfirst post, hfirst []], ?_, ?_⟩
    · simp only [save_draft]
      rw [heq, hfirst post]
      by_cases h2 : m.selectOk inboxName = true
      · rw [if_pos rfl, if_pos h2]
      · rw [if_pos rfl, if_neg h2]
    · intro h2
      simp only [save_draft]
      rw [heq, hfirst post, if_pos rfl, if_pos h2]
  · intro hall hs2 ha2
    obtain ⟨sel, hfail⟩ := trySave_all_fail m (mkDraft c ed resp) draftFolders hall st
    constructor
    · simp only [save_draft]
      rw [hfail, if_neg (by simp), if_pos hs2, if_pos ha2, if_pos hs2]
    · simp only [save_draft]
      rw [hfail, if_neg (by simp), if_pos hs2, if_pos ha2, if_pos hs2]

/-- IMAP oracle for the C3 witness: `Drafts` and `Draft` reject,
`[Gmail]/Drafts` accepts, INBOX is selectable. -/
def mW3 : ImapModel :=
  { selectOk := fun s => s == "[Gmail]/Drafts" || s == inboxName,
    appendOk := fun s => s == "[Gmail]/Drafts",
    storeOk := true }

/-- Initial IMAP state for the C3 witness. -/
def stW3 : ImapState := { selected := inboxName, appended := [], flagged := [] }

/-- Candidate message for the C3 witness. -/
def edW3 : EmailData :=
  { uid := "9", sender := "carol@example.com", subject := "Hello", content := "Hi" }

/-- Reply text for the C3 witness. -/
def respW3 : String := "A reply."

/-- Account address for the C3 witness. -/
def myAddr : String := "me@example.com"

/-- Folders before the accepting folder in the C3 witness scenario. -/
def preW3 : List String := ["Drafts", "Draft"]

/-- The accepting folder in the C3 witness scenario. -/
def fW3 : String := "[Gmail]/Drafts"

/-- Witness for C3 at a concrete input: with the first two candidates
rejecting and the third accepting, the draft lands exactly in the third
folder and the final selection is INBOX. -/
theorem save_draft_folder_fallback_witness :
    (save_draft mW3 myAddr edW3 respW3 stW3).appended
        = stW3.appended ++ [(fW3, mkDraft myAddr edW3 respW3)] ∧
    (save_draft mW3 myAddr edW3 respW3 stW3).selected = inboxName := by
  have h := (save_draft_folder_fallback mW3 stW3 myAddr edW3 respW3).2.1
    preW3 fW3 ["INBOX/Drafts"] (by decide) (by decide) (by decide) (by decide)
  exact ⟨h.2.1, h.2.2 (by decide)⟩

end EmailAssistant

namespace EmailAssistant

/-! ## Claims C4 and C5: history retrieval and instruction persistence -/

/-- C4: for every history and sender, `_get_relevant_history` returns the
no-history sentinel when the sender is unknown; otherwise it renders
exactly the suffix of the last `min 5 n` stored entries of the sender, in stored (chronological) order. -/
theorem relevant_history_spec :
    ∀ (h : List (String × List HistoryEntry)) (sender : String),
      (hlookup sender h = none → _get_relevant_history h sender = noHistoryMsg) ∧
      (∀ l, hlookup sender h = some l →
        ∃ pre recent, l = pre ++ recent ∧ recent.length = min 5 l.length ∧
          _get_relevant_history h sender = String.join (recent.map renderConv)) := by
  intro h sender
  constructor
  · intro hn
    unfold _get_relevant_history
    rw [hn]
  · intro l hl
    refine ⟨l.take (l.length - 5), l.drop (l.length - 5),
      (List.take_append_drop _ _).symm, ?_, ?_⟩
    · rw [List.length_drop]
      omega
    · unfold _get_relevant_history
      rw [hl]

/-- One synthetic history entry per label, for witnesses. -/
def wEntry (n : String) : HistoryEntry :=
  { timestamp := n, subject := n, content := n, response := n }

/-- Six stored entries for the C4 witness (more than the 5-entry window). -/
def histList6 : List HistoryEntry :=
  ["1", "2", "3", "4", "5", "6"].map (fun n => wEntry n)

/-- Sender known to the witness history. -/
def aliceName : String := "alice@example.com"

/-- Sender unknown to the witness history. -/
def bobName : String := "bob@example.com"

/-- Witness history: one sender with six entries. -/
def histW4 : List (String × List HistoryEntry) := [(aliceName, histList6)]

/-- Witness for C4 at concrete inputs: the unknown sender gets the
sentinel; the rendering for the known sender comes from a length-5 suffix. -/
theorem relevant_history_spec_witness :
    _get_relevant_history histW4 bobName = noHistoryMsg ∧
    (∃ pre recent, histList6 = pre ++ recent ∧ recent.length = min 5 histList6.length ∧
      _get_relevant_history histW4 aliceName = String.join (recent.map renderConv)) :=
  ⟨(relevant_history_spec histW4 bobName).1 (by decide),
   (relevant_history_spec histW4 aliceName).2 histList6 (by decide)⟩

/-- C5: persist-then-load round trip.  After `add_instruction`, loading the
training context afresh from the stored document yields an
`additional_instructions` sequence equal to the previous one with the new
instruction appended — so every previously stored instruction is still
present in its original order and the new one is the last element. -/
theorem add_instruction_roundtrip :
    ∀ (tc : TrainingContext) (cfg now text : String),
      (load_training_context cfg (add_instruction now text tc).2).1.additional_instructions
          = tc.additional_instructions ++ [{ timestamp := now, instruction := text }] ∧
      (load_training_context cfg (add_instruction now text tc).2).1.additional_instructions.getLast?
          = some { timestamp := now, instruction := text } := by
  intro tc cfg now text
  have h1 : (load_training_context cfg (add_instruction now text tc).2).1.additional_instructions
      = tc.additional_instructions ++ [{ timestamp := now, instruction := text }] := rfl
  refine ⟨h1, ?_⟩
  rw [h1, List.getLast?_concat]

/-! ## ProcessingLoop (`run`, `base_email_assistant.py` lines 203-233, and
the backend `generate_response` wrappers in `email_assistant_anthropic.py`
lines 13-79 / `email_assistant_openai.py` lines 60-115) -/

/-- Python `str.startswith`. -/
def pyStartsWith (s pre : String) : Bool := pre.toList.isPrefixOf s.toList

/-- Python truthiness of a string (`if response`): non-empty. -/
def pyTruthy (s : String) : Bool := !(s.toList.isEmpty)

/-- The prefix tested at line 214: `response.startswith("Error generating")`. -/
def errMarker : String := "Error generating"

/-- The in-band error string returned by the backend wrappers
(`email_assistant_anthropic.py` line 79, `email_assistant_openai.py`
line 115) when any exception is raised during generation. -/
def errResponseMsg : String := "Error generating response. Please check the logs for details."

/-- Embedding of `generate_response` of the backend variants: the whole body is wrapped
in `try/except Exception`, so the call is total over the backend outcome —
a raised exception (`Except.error`) becomes the in-band `errResponseMsg`,
a normal backend reply is returned as-is.  Prompt assembly (also inside
the `try`) is pure and modelled separately (`exampleContext` etc.). -/
def generate_response (backendResult : Except String String) : String :=
  match backendResult with
  | Except.error _ => errResponseMsg
  | Except.ok t => t

/-- The guard of line 214: `if response and not response.startswith("Error generating")`. -/
def goodResp (r : String) : Bool := pyTruthy r && !(pyStartsWith r errMarker)

/-- Whole-assistant state: IMAP effects, in-memory history and training
context, and the two stored JSON documents. -/
structure AsstState where
  imapSt : ImapState
  history : List (String × List HistoryEntry)
  training : TrainingContext
  storedHist : Option (List (String × List HistoryEntry))
  storedTraining : Option TrainingContext
deriving DecidableEq

/-- Environment of one polling cycle: the IMAP oracle, the generation
backend outcome per message, whether `save_history` succeeds, the
`mark_as_read` config flag (default true), the account address, and the
clock. -/
structure RunModel where
  imap : ImapModel
  responder : EmailData → Except String String
  histPersistOk : Bool
  markAsReadCfg : Bool
  cfgEmail : String
  now : String

/-- Embedding of `update_history` (lines 168-180): append to the per-sender history
list (creating it lazily) and persist the whole document synchronously.
Touches nothing else. -/
def update_history (now : String) (ed : EmailData) (resp : String) (st : AsstState) : AsstState :=
  let h2 := histAppend st.history ed.sender (mkHistEntry now ed resp)
  { st with history := h2, storedHist := some h2 }

/-- Per-message body of `run` (lines 210-226): generate a response; when
it is truthy and not error-prefixed, publish the draft (`save_draft`
cannot raise), append to the in-memory history, persist it
(`save_history`; on failure the exception is caught by the per-message
`except`, so flagging is skipped but the in-memory append survives), and
finally flag the message read when the config allows and the store call
succeeds.  Otherwise the message is skipped entirely. -/
def processMessage (m : RunModel) (st : AsstState) (ed : EmailData) : AsstState :=
  let response := generate_response (m.responder ed)
  if goodResp response then
    let st1 : AsstState := { st with imapSt := save_draft m.imap m.cfgEmail ed response st.imapSt }
    let h2 := histAppend st1.history ed.sender (mkHistEntry m.now ed response)
    let st2 : AsstState := { st1 with history := h2 }
    if m.histPersistOk then
      let st3 : AsstState := { st2 with storedHist := some h2 }
      if m.markAsReadCfg then
        if m.imap.storeOk then { st3 with imapSt := mark_as_read ed.uid st3.imapSt }
        else st3
      else st3
    else st2
  else st

/-- One polling cycle over a candidate batch (the `for` loop of line 210). -/
def runCycle (m : RunModel) : AsstState → List EmailData → AsstState
  | st, [] => st
  | st, ed :: rest => runCycle m (processMessage m st ed) rest

/-- C10: `update_history` appends exactly one entry at the end of the
sequence of the sender (creating it lazily for an unknown sender), leaves the
sequence of every other sender unchanged, leaves the training context (in memory
and on disk) and the IMAP state untouched, persists exactly the updated
history, and preserves the invariant that every present sender has a
non-empty sequence. -/
theorem update_history_frame :
    ∀ (now : String) (ed : EmailData) (resp : String) (st : AsstState),
      hlookup ed.sender (update_history now ed resp st).history
          = some ((hlookup ed.sender st.history).getD [] ++ [mkHistEntry now ed resp]) ∧
      (∀ s, s ≠ ed.sender →
        hlookup s (update_history now ed resp st).history = hlookup s st.history) ∧
      (update_history now ed resp st).training = st.training ∧
      (update_history now ed resp st).storedTraining = st.storedTraining ∧
      (update_history now ed resp st).imapSt = st.imapSt ∧
      (update_history now ed resp st).storedHist = some (update_history now ed resp st).history ∧
      ((∀ p ∈ st.history, p.2 ≠ ([] : List HistoryEntry)) →
        ∀ p ∈ (update_history now ed resp st).history, p.2 ≠ ([] : List HistoryEntry)) := by
  intro now ed resp st
  exact ⟨hlookup_histAppend_self st.history ed.sender (mkHistEntry now ed resp),
    fun s hs => hlookup_histAppend_other st.history hs (mkHistEntry now ed resp),
    rfl, rfl, rfl, rfl,
    fun hinv => histAppend_nonempty st.history ed.sender (mkHistEntry now ed resp) hinv⟩

/-- Empty training context used by concrete states. -/
def tcEmpty : TrainingContext :=
  { system_prompt := "", additional_instructions := [], example_responses := [] }

/-- Concrete state for the C10 witness: one known sender. -/
def stW10 : AsstState :=
  { imapSt := { selected := inboxName, appended := [], flagged := [] },
    history := [(aliceName, histList6)],
    training := tcEmpty,
    storedHist := some [(aliceName, histList6)],
    storedTraining := some tcEmpty }

/-- Candidate message from the unknown sender for the C10 witness. -/
def edW10 : EmailData := { uid := "3", sender := bobName, subject := "s", content := "c" }

/-- Reply recorded by the C10 witness. -/
def respW10 : String := "reply text"

/-- Timestamp for the C10 witness. -/
def nowW10 : String := "2024-05-05T10:00:00"

/-- Witness for C10 at concrete inputs: the sequence of the unknown sender is
created with the single new entry, the sequence of the known sender is
untouched, the training context is untouched, and the non-emptiness
invariant is preserved at a concrete element. -/
theorem update_history_frame_witness :
    hlookup bobName (update_history nowW10 edW10 respW10 stW10).history
        = some ((hlookup bobName stW10.history).getD [] ++ [mkHistEntry nowW10 edW10 respW10]) ∧
    hlookup aliceName (update_history nowW10 edW10 respW10 stW10).history
        = hlookup aliceName stW10.history ∧
    (update_history nowW10 edW10 respW10 stW10).training = stW10.training ∧
    ((bobName, [mkHistEntry nowW10 edW10 respW10]) :
        String × List HistoryEntry).2 ≠ ([] : List HistoryEntry) := by
  have h := update_history_frame nowW10 edW10 respW10 stW10
  exact ⟨h.1, h.2.1 aliceName (by decide), h.2.2.1,
    h.2.2.2.2.2.2 (by decide) (bobName, [mkHistEntry nowW10 edW10 respW10]) (by decide)⟩

end EmailAssistant

namespace EmailAssistant

/-! ## Claims C1, C7, C9: the per-message success/failure discipline -/

/-- A successful backend reply used by the C1 counterexample. -/
def okText : String := "Thanks for the note."

/-- Run environment for the C1 counterexample: the backend succeeds, the
history persist and the flag store succeed, `mark_as_read` is enabled —
but every IMAP select and append raises, so the draft can be published
nowhere (not even the INBOX fallback). -/
def mAllFail : RunModel :=
  { imap := { selectOk := fun _ => false, appendOk := fun _ => false, storeOk := true },
    responder := fun _ => Except.ok okText,
    histPersistOk := true, markAsReadCfg := true,
    cfgEmail := "me@example.com", now := "2024-01-01T00:00:00" }

/-- Fresh state for the C1 counterexample. -/
def stC1 : AsstState :=
  { imapSt := { selected := inboxName, appended := [], flagged := [] },
    history := [], training := tcEmpty, storedHist := some [], storedTraining := some tcEmpty }

/-- Candidate message for the C1 counterexample. -/
def edC1 : EmailData :=
  { uid := "42", sender := "dave@example.com", subject := "Hi", content := "Hello" }

/-- C1, counterexample: the draft publish fails completely (no append
succeeded anywhere, so no draft exists), yet the message is still
recorded in history and flagged read — because `save_draft` swallows all
its exceptions and returns normally, the `run` loop cannot observe a
publish failure.  This refutes "flagged read only if the draft publish
succeeded". -/
theorem flagged_despite_publish_failure :
    (processMessage mAllFail stC1 edC1).imapSt.appended = [] ∧
    (processMessage mAllFail stC1 edC1).imapSt.flagged = [edC1.uid] ∧
    (processMessage mAllFail stC1 edC1).storedHist
        = some [(edC1.sender, [mkHistEntry mAllFail.now edC1 okText])] := by
  decide

/-- C1 (amended): a message is flagged read if and only if the Responder
produced a usable response (non-empty and not error-prefixed), the
history persist succeeded, the `mark_as_read` option is enabled, and the
flag-store call itself succeeded.  The draft publish does not appear in
this condition: `save_draft` swallows every error and reports nothing, so
a publish failure can never prevent history recording or read-flagging. -/
theorem flagged_iff_responder_history_store :
    ∀ (m : RunModel) (st : AsstState) (ed : EmailData),
      (processMessage m st ed).imapSt.flagged =
        st.imapSt.flagged ++
          (if (goodResp (generate_response (m.responder ed)) && m.histPersistOk &&
                m.markAsReadCfg && m.imap.storeOk) = true
           then [ed.uid] else []) := by
  intro m st ed
  simp only [processMessage]
  by_cases hg : goodResp (generate_response (m.responder ed)) = true
  · rw [if_pos hg]
    by_cases hh : m.histPersistOk = true
    · rw [if_pos hh]
      by_cases hm : m.markAsReadCfg = true
      · rw [if_pos hm]
        by_cases hs : m.imap.storeOk = true
        · rw [if_pos hs]
          simp [mark_as_read, save_draft_flagged, hg, hh, hm, hs]
        · rw [if_neg hs]
          simp [save_draft_flagged, hg, hh, hm, hs]
      · rw [if_neg hm]
        simp [save_draft_flagged, hg, hh, hm]
    · rw [if_neg hh]
      simp [save_draft_flagged, hg, hh]
  · rw [if_neg hg]
    simp [hg]

/-- C7: a Responder failure on one candidate leaves the whole state
unchanged for that message — no draft is published, no history is
recorded, nothing is flagged — and the cycle simply continues with the
remaining candidates. -/
theorem responder_failure_isolated :
    ∀ (m : RunModel) (st : AsstState) (ed : EmailData) (err : String) (rest : List EmailData),
      m.responder ed = Except.error err →
      processMessage m st ed = st ∧
      runCycle m st (ed :: rest) = runCycle m st rest := by
  intro m st ed err rest h
  have hpm : processMessage m st ed = st := by
    simp only [processMessage, h, generate_response]
    rw [if_neg (by decide : ¬ goodResp errResponseMsg = true)]
  refine ⟨hpm, ?_⟩
  show runCycle m (processMessage m st ed) rest = runCycle m st rest
  rw [hpm]

/-- Backend error used by the C7 witness. -/
def boomMsg : String := "api quota exceeded"

/-- Run environment for the C7 witness: the backend raises. -/
def mErr : RunModel :=
  { imap := { selectOk := fun _ => true, appendOk := fun _ => true, storeOk := true },
    responder := fun _ => Except.error boomMsg,
    histPersistOk := true, markAsReadCfg := true,
    cfgEmail := "me@example.com", now := "2024-01-02T00:00:00" }

/-- First candidate (failing) for the C7 witness. -/
def edW7 : EmailData :=
  { uid := "10", sender := "erin@example.com", subject := "a", content := "b" }

/-- Second candidate for the C7 witness batch. -/
def edW7b : EmailData :=
  { uid := "11", sender := "frank@example.com", subject := "c", content := "d" }

/-- Witness for C7 at concrete inputs. -/
theorem responder_failure_isolated_witness :
    processMessage mErr stW10 edW7 = stW10 ∧
    runCycle mErr stW10 [edW7, edW7b] = runCycle mErr stW10 [edW7b] := by
  have h := responder_failure_isolated mErr stW10 edW7 boomMsg [edW7b] rfl
  exact ⟨h.1, h.2⟩

/-- C9: `generate_response` is total over every backend behaviour — a
raised exception becomes exactly the in-band `errResponseMsg`, which
carries the `"Error generating"` prefix, and a normal backend reply is
returned unchanged; the run loop classifies any response with that prefix
as a failure, so even a legitimately generated reply that happens to
begin with `"Error generating"` leaves the state untouched: it is never
published, recorded, or flagged. -/
theorem generate_response_total_inband :
    (∀ err : String, generate_response (Except.error err) = errResponseMsg) ∧
    pyStartsWith errResponseMsg errMarker = true ∧
    (∀ s : String, generate_response (Except.ok s) = s) ∧
    (∀ (m : RunModel) (st : AsstState) (ed : EmailData) (s : String),
      m.responder ed = Except.ok s → pyStartsWith s errMarker = true →
      processMessage m st ed = st) := by
  refine ⟨fun _ => rfl, by decide, fun _ => rfl, ?_⟩
  intro m st ed s h hpre
  simp only [processMessage, h, generate_response]
  rw [if_neg (by simp [goodResp, hpre])]

/-- A legitimate reply that happens to begin with the error prefix. -/
def trickResp : String := "Error generating reports is a common user issue; here is how to fix it."

/-- Run environment for the C9 witness: the backend succeeds with
`trickResp`. -/
def mTrick : RunModel :=
  { imap := { selectOk := fun _ => true, appendOk := fun _ => true, storeOk := true },
    responder := fun _ => Except.ok trickResp,
    histPersistOk := true, markAsReadCfg := true,
    cfgEmail := "me@example.com", now := "2024-01-03T00:00:00" }

/-- Witness for C9 at concrete inputs: the legitimate error-prefixed
reply is treated as a failure and nothing happens to the state. -/
theorem generate_response_total_inband_witness :
    pyStartsWith trickResp errMarker = true ∧
    processMessage mTrick stW10 edW7b = stW10 :=
  ⟨by decide,
   generate_response_total_inband.2.2.2 mTrick stW10 edW7b trickResp rfl (by decide)⟩

end EmailAssistant

namespace EmailAssistant

/-! ## ContextAssembler example block (C8)

`email_assistant_anthropic.py` lines 23-36 and `email_assistant_openai.py`
lines 70-83 build the example block with
`sorted(example_responses, key=lambda x: x["timestamp"], reverse=True)[:5]`.
The Python `sorted` builtin is a stable sort, and with `reverse=True` elements with
equal keys still keep their storage order; timestamps are ISO strings
compared lexicographically.  It is modelled by the stable
`List.insertionSort` of Mathlib under the decreasing-timestamp relation `tsGe`, with
string comparison as lexicographic order on the character list. -/

/-- Relation: `a` may precede `b` in the descending sort: the timestamp of `b` is not larger.  On ties the relation holds both ways and the stable sort keeps
storage order. -/
def tsGe (a b : ExampleResponse) : Prop := b.timestamp.toList ≤ a.timestamp.toList

instance : DecidableRel tsGe :=
  fun a b => (inferInstance : Decidable (b.timestamp.toList ≤ a.timestamp.toList))

instance : IsTotal ExampleResponse tsGe :=
  ⟨fun a b => le_total b.timestamp.toList a.timestamp.toList⟩

instance : IsTrans ExampleResponse tsGe :=
  ⟨fun _ _ _ hab hbc => le_trans hbc hab⟩

/-- The header of the example block (anthropic line 32 / openai line 79). -/
def exampleHeader : String := "Recent example responses:\n\n"

/-- Rendering of one example (anthropic lines 34-36 / openai lines 81-83). -/
def renderExample (ex : ExampleResponse) : String :=
  "Subject: " ++ ex.subject ++ "\n" ++ "Original: " ++ ex.original_content ++ "\n" ++
    "Response: " ++ ex.response ++ "\n\n"

/-- Python `sorted(..., reverse=True)[:5]`: the five most recent examples. -/
def recentExamples (l : List ExampleResponse) : List ExampleResponse :=
  (List.insertionSort tsGe l).take 5

/-- The example block: empty when `example_responses` is empty (the falsy
check at anthropic line 25 / openai line 72), otherwise the header
followed by the rendered recent examples. -/
def exampleContext (l : List ExampleResponse) : String :=
  match l with
  | [] => ""
  | _ :: _ => exampleHeader ++ String.join ((recentExamples l).map renderExample)

/-- Stability of one ordered insertion, expressed through `filter` on a
fixed timestamp: the entries carrying any given timestamp appear in the
same order before and after insertion. -/
lemma orderedInsert_filter_ts (x : ExampleResponse) (t : String) :
    ∀ s : List ExampleResponse,
      (List.orderedInsert tsGe x s).filter (fun e => e.timestamp == t)
        = (if x.timestamp == t then [x] else [])
            ++ s.filter (fun e => e.timestamp == t) := by
  intro s
  induction s with
  | nil =>
    by_cases hx : (x.timestamp == t) = true <;> simp [List.orderedInsert, List.filter, hx]
  | cons y ys ih =>
    by_cases hr : tsGe x y
    · have hstep : List.orderedInsert tsGe x (y :: ys) = x :: y :: ys := by
        simp [List.orderedInsert, hr]
      rw [hstep]
      by_cases hx : (x.timestamp == t) = true <;> by_cases hy : (y.timestamp == t) = true <;>
        simp [List.filter_cons, hx, hy]
    · have hlt : x.timestamp.toList < y.timestamp.toList := not_le.mp hr
      have hstep : List.orderedInsert tsGe x (y :: ys) = y :: List.orderedInsert tsGe x ys := by
        simp [List.orderedInsert, hr]
      rw [hstep, List.filter_cons]
      by_cases hx : (x.timestamp == t) = true
      · have hxt : x.timestamp = t := by rwa [beq_iff_eq] at hx
        have hyt : (y.timestamp == t) = false := by
          rw [beq_eq_false_iff_ne]
          intro hy
          have hyx : y.timestamp.toList = x.timestamp.toList := by rw [hy, hxt]
          exact absurd hyx (ne_of_gt hlt)
        rw [ih]
        simp [hx, hyt]
      · rw [ih]
        by_cases hy : (y.timestamp == t) = true <;> simp [hx, hy]

/-- Stability of the whole sort: for every timestamp value, filtering the
sorted list gives exactly the same sequence as filtering the stored list —
ties are broken by storage order. -/
lemma insertionSort_filter_ts (t : String) :
    ∀ l : List ExampleResponse,
      (List.insertionSort tsGe l).filter (fun e => e.timestamp == t)
        = l.filter (fun e => e.timestamp == t) := by
  intro l
  induction l with
  | nil => rfl
  | cons x xs ih =>
    simp only [List.insertionSort]
    rw [orderedInsert_filter_ts, ih, List.filter_cons]
    by_cases hx : (x.timestamp == t) = true <;> simp [hx]

/-- C8: the example block is omitted exactly when no examples are stored;
otherwise it consists of the header and the renderings of the first five
entries of a list that is a permutation of the stored examples, is sorted
by non-increasing timestamp, and preserves the storage order of entries
with equal timestamps (stability) — i.e. exactly the 5 most-recently
timestamped entries with ties broken by storage order, all entries if
fewer than 5 exist (the selection has length `min 5 n`), each rendered as
subject/original/response.  Every selected entry has a timestamp at least
that of every unselected entry. -/
theorem example_block_spec :
    ∀ l : List ExampleResponse,
      (l = [] → exampleContext l = "") ∧
      (l ≠ [] →
        List.Perm (List.insertionSort tsGe l) l ∧
        List.Pairwise tsGe (List.insertionSort tsGe l) ∧
        (∀ t : String, (List.insertionSort tsGe l).filter (fun e => e.timestamp == t)
            = l.filter (fun e => e.timestamp == t)) ∧
        (recentExamples l).length = min 5 l.length ∧
        (∀ a ∈ recentExamples l, ∀ b ∈ (List.insertionSort tsGe l).drop 5, tsGe a b) ∧
        exampleContext l
            = exampleHeader ++ String.join ((recentExamples l).map renderExample)) := by
  intro l
  constructor
  · intro h
    subst h
    rfl
  · intro hne
    have hperm := List.perm_insertionSort tsGe l
    have hsorted := List.sorted_insertionSort tsGe l
    refine ⟨hperm, hsorted, fun t => insertionSort_filter_ts t l, ?_, ?_, ?_⟩
    · simp only [recentExamples]
      rw [List.length_take, hperm.length_eq]
    · intro a ha b hb
      have h2 : List.Pairwise tsGe
          (List.take 5 (List.insertionSort tsGe l) ++ List.drop 5 (List.insertionSort tsGe l)) := by
        rw [List.take_append_drop]
        exact hsorted
      exact (List.pairwise_append.mp h2).2.2 a ha b hb
    · cases l with
      | nil => exact absurd rfl hne
      | cons x xs => rfl

/-- Six stored examples for the C8 witness, including a timestamp tie. -/
def exList : List ExampleResponse :=
  [("3", "a"), ("1", "b"), ("3", "c"), ("2", "d"), ("5", "e"), ("4", "f")].map
    (fun p => { timestamp := p.1, sender := "", subject := p.2,
                original_content := "", response := "" })

/-- The tied timestamp value exercised by the C8 witness. -/
def tieTs : String := "3"

/-- Witness for C8 at concrete inputs: both branches of the claim (the
empty case and a six-element store with a timestamp tie). -/
theorem example_block_spec_witness :
    exampleContext ([] : List ExampleResponse) = "" ∧
    exampleContext exList
        = exampleHeader ++ String.join ((recentExamples exList).map renderExample) ∧
    (recentExamples exList).length = min 5 exList.length ∧
    (List.insertionSort tsGe exList).filter (fun e => e.timestamp == tieTs)
        = exList.filter (fun e => e.timestamp == tieTs) ∧
    List.Perm (List.insertionSort tsGe exList) exList := by
  have h := (example_block_spec exList).2 (by decide)
  exact ⟨(example_block_spec []).1 rfl, h.2.2.2.2.2, h.2.2.2.1, h.2.2.1 tieTs, h.1⟩

end EmailAssistant
